import Mathlib

/-!
# Electrolite — verification of the route-dispatch engine and the
  multi-display geometry resolver

Shallow embedding of the algorithmic core of the `electrolite` repository:

* `API.js` (appended to `README.md` in this snapshot): route registration
  (`get`/`post`/`use`), duplicate detection (`throwErrorIfExists`),
  query-string splitting (`#getRouteAndParams`), and the dispatch pipeline
  with middleware short-circuit (`getRoute`).
* `Window.js`: the per-window dispatch entry point (`apply`) that consults
  the window-local route table before the global one.
* `Settings.js` (`DesktopClass`): the geometry resolver
  (`#getWindowPosition` with its inner `translateString`) and the display
  selector (`#getScreenName`).

`lib/route-parser.js` is required by `API.js` but absent from the snapshot;
its `match` operation is modelled from the spec (see `matchSegs` below).

JavaScript numbers that matter here are integers (pixel coordinates) and the
intermediate fractional values produced by percentage arithmetic; the model
uses `Int` and exact fractions (`JSNum`) with an explicit truncation step
mirroring `parseInt`.
-/

namespace Electrolite

/-! ## Route pattern matching

`Modelled from the spec:` the repository requires `lib/route-parser.js`
(`new routeParser(route)` / `.match(path)`), which is not part of the
source snapshot.  The matcher below follows the spec's matching algorithm
word for word: split pattern and path on `/`; a pattern segment starting
with `:` binds the corresponding input segment under that name (leading
`:` stripped); a literal segment must equal the corresponding input
segment exactly; a trailing wildcard segment `*` matches the remainder of
the path (zero or more segments) and terminates matching successfully; in
the absence of a wildcard the segment counts must match exactly, otherwise
matching fails and returns `none` (not an error). -/

/-- Split a character list on a separator character; always returns at least
one (possibly empty) piece, like JavaScript `String.split` with a
single-character separator (every separator in the source — `/`, `?`, `&`,
`=` — is a single character). -/
def splitOnChar (sep : Char) : List Char → List (List Char)
  | [] => [[]]
  | c :: cs =>
    match splitOnChar sep cs with
    | [] => [[c]]
    | h :: t => if c = sep then [] :: h :: t else (c :: h) :: t

/-- JavaScript `s.split(sep)` for a single-character separator. -/
def strSplitOn (sep : Char) (s : String) : List String :=
  (splitOnChar sep s.data).map String.mk

/-- The `sep`-joining of a string list (`Array.prototype.join` /
`String.intercalate` for a one-character separator). -/
def joinWithChar (sep : Char) (l : List String) : String :=
  String.mk (List.intercalate [sep] (l.map String.data))

/-- Does the segment start with `:` (a named-parameter segment)? -/
def segIsParam (p : String) : Bool :=
  match p.data with
  | ':' :: _ => true
  | _ => false

/-- The parameter name: the segment with its leading `:` stripped. -/
def segParamName (p : String) : String :=
  String.mk (p.data.drop 1)

/-- Segment-by-segment matching of a split pattern against a split path,
returning the bound named parameters, or `none` on mismatch. -/
def matchSegs : List String → List String → Option (List (String × String))
  | ["*"], _ => some []
  | [], [] => some []
  | [], _ :: _ => none
  | _ :: _, [] => none
  | p :: ps, c :: cs =>
    if segIsParam p then
      (matchSegs ps cs).map (fun m => (segParamName p, c) :: m)
    else if p = c then matchSegs ps cs
    else none

/-- The `match` of a compiled route pattern against a concrete path:
split both on `/` and match segment lists. -/
def matchPattern (pattern path : String) : Option (List (String × String)) :=
  matchSegs (strSplitOn '/' pattern) (strSplitOn '/' path)

/-! ## Query-string splitting — `APIClass.#getRouteAndParams` (README.md) -/

/-- JavaScript object assignment `query[k] = v`: overwrite the value when the
key is already present (keeping first-insertion order), append otherwise. -/
def setQ (q : List (String × String)) (k v : String) : List (String × String) :=
  if q.any (fun p => p.1 = k) then
    q.map (fun p => if p.1 = k then (k, v) else p)
  else q ++ [(k, v)]

/-- One step of the query `forEach`: `argWithValue.split("=")` keeps the pair
only when the split has exactly two parts. -/
def queryStep (acc : List (String × String)) (kv : String) : List (String × String) :=
  match strSplitOn '=' kv with
  | [k, v] => setQ acc k v
  | _ => acc

/-- Source `#getRouteAndParams(routeWithQueryParams)`: `split("?")`, the route is
element 0, the query string is element 1 (`routeAndQueryParams[1] || ''` —
anything after a second `?` is in elements 2.. and is never looked at),
parsed by splitting on `&` then `=`. -/
def getRouteAndParams (rq : String) : String × List (String × String) :=
  let parts := strSplitOn '?' rq
  let route := parts.headD ""
  let qstr := (parts.drop 1).headD ""
  (route, (strSplitOn '&' qstr).foldl queryStep [])

/-- Follows the claim's words, for refinement comparison only: the query is
parsed from *everything after the first `?`* (the code instead uses only the
portion up to the second `?`). -/
def claimRouteAndParams (rq : String) : String × List (String × String) :=
  let parts := strSplitOn '?' rq
  let route := parts.headD ""
  let qstr := joinWithChar '?' (parts.drop 1)
  (route, (strSplitOn '&' qstr).foldl queryStep [])

/-! ## The dispatch pipeline — `APIClass.getRoute` (README.md)

A middleware (and the final handler, which is appended to the chain as
`lastCallback`) is invoked as `middleware(req, res, next)`.  Its behaviour
on a given request is modelled abstractly by an outcome: either it returns
a value (possibly `undefined`), having possibly called `res(breakValue)`
(recorded as the last value passed to `res`), or it throws.  The engine's
sequencing — `breakpoint` / `breakValue` checked at the top of each loop
iteration, `result` holding the last return value, the `try`/`catch` that
turns a thrown error into the returned value — is translated literally. -/

/-- The request object built by `getRoute` for each dispatch. -/
structure Req (V : Type) where
  url : String
  method : String
  params : List (String × String)
  query : List (String × String)
  pathname : String
  body : Option V
  deriving Repr, DecidableEq

/-- Outcome of invoking one element of the chain on a request:
`ret r resCall` — it returned `r` (`none` = `undefined`), with `resCall`
recording the last `res(⋅)` call if any (`some bv` means `res` was called,
last with `bv`); `thrown e` — it threw `e`. -/
inductive MWOutcome (V E : Type) where
  | ret (r : Option V) (resCall : Option (Option V))
  | thrown (e : E)
  deriving Repr, DecidableEq

/-- A chain element (middleware or handler), abstracted as its outcome on
each request. -/
abbrev MW (V E : Type) := Req V → MWOutcome V E

/-- The `for await (const middleware of traceCall)` loop.  State mirrors the
JavaScript locals: `breakpoint`, `breakValue` and `result`; the check
`if (breakpoint) { return breakValue; }` sits at the top of each iteration.
Returns the number of chain elements actually invoked (the loop invokes
elements strictly in list order, so `n` invoked means exactly the first `n`
elements ran) together with the loop's value — `Except.error e` when an
element threw (to be caught at the pipeline boundary). -/
def runTrace (req : Req V) :
    List (MW V E) → Bool → Option V → Option V → Nat × Except E (Option V)
  | [], _, _, result => (0, Except.ok result)
  | _ :: _, true, breakValue, _ => (0, Except.ok breakValue)
  | m :: rest, false, breakValue, _ =>
    match m req with
    | MWOutcome.thrown e => (1, Except.error e)
    | MWOutcome.ret r resCall =>
      let step :=
        match resCall with
        | some bv => runTrace req rest true bv r
        | none => runTrace req rest false breakValue r
      (step.1 + 1, step.2)

/-- The body of the promise built by `getRoute`: if the middleware list is
empty, call the handler directly; otherwise run the chain
`[...middleware, lastCallback]`; a thrown error is caught
(`catch(error) { console.log(error); return error; }`) and becomes the
returned value.  `Sum.inl v` is a normal return (`none` = `undefined`),
`Sum.inr e` is a caught error returned as the result value. -/
def dispatch (mws : List (MW V E)) (handler : MW V E) (req : Req V) :
    Sum (Option V) E :=
  let run : Except E (Option V) :=
    if mws.isEmpty then
      match handler req with
      | MWOutcome.thrown e => Except.error e
      | MWOutcome.ret r _ => Except.ok r
    else (runTrace req (mws ++ [handler]) false none none).2
  match run with
  | Except.ok v => Sum.inl v
  | Except.error e => Sum.inr e

/-- Number of chain elements (middlewares, plus possibly the handler) that a
dispatch actually invokes. -/
def invokedCount (mws : List (MW V E)) (handler : MW V E) (req : Req V) : Nat :=
  if mws.isEmpty then 1
  else (runTrace req (mws ++ [handler]) false none none).1

/-! ## The route table — `APIClass` (README.md) -/

/-- The two accepted methods (`this.#routes = { get: [], post: [], ... }`). -/
inductive Method where
  | get
  | post
  deriving Repr, DecidableEq

/-- The `method.toUpperCase()` value used when building the request object. -/
def methodUpper : Method → String
  | Method.get => "GET"
  | Method.post => "POST"

/-- Lower-case method key, as used in the duplicate-route error message. -/
def methodKey : Method → String
  | Method.get => "get"
  | Method.post => "post"

/-- One registered route: the compiled pattern (kept as its source string;
compilation is pure) and its handler. -/
structure RouteEntry (V E : Type) where
  pattern : String
  callback : MW V E

/-- The private `#routes` store of one `APIClass` instance. -/
structure APIState (V E : Type) where
  getRoutes : List (RouteEntry V E)
  postRoutes : List (RouteEntry V E)
  middleware : List (MW V E)

/-- Selector `this.#routes[ method ]`. -/
def APIState.routesFor (api : APIState V E) : Method → List (RouteEntry V E)
  | Method.get => api.getRoutes
  | Method.post => api.postRoutes

/-- Source `throwErrorIfExists(route, method)`: the new route's literal string is
matched, as a concrete path, against every existing compiled pattern of the
method; `true` means the registration throws.  (The source also computes a
local `isWildcard` flag from the new route's last character, but never uses
it.) -/
def throwErrorIfExists (routes : List (RouteEntry V E)) (route : String) : Bool :=
  routes.any (fun re => (matchPattern re.pattern route).isSome)

/-- Source `get(route, callback)` / `post(route, callback)`: duplicate check, then
push at the end of the method's list (registration order is preserved). -/
def registerRoute (api : APIState V E) (m : Method) (route : String)
    (cb : MW V E) : Except String (APIState V E) :=
  if throwErrorIfExists (api.routesFor m) route then
    Except.error ("Route [" ++ methodKey m ++ "] " ++ route ++ " already exists")
  else
    Except.ok (match m with
      | Method.get => { api with getRoutes := api.getRoutes ++ [⟨route, cb⟩] }
      | Method.post => { api with postRoutes := api.postRoutes ++ [⟨route, cb⟩] })

/-- Source `use(middleware)`: append to the middleware list. -/
def registerMiddleware (api : APIState V E) (mw : MW V E) : APIState V E :=
  { api with middleware := api.middleware ++ [mw] }

/-- The scanning loop of `getRoute`: routes are tried in registration order
and the loop `break`s at the first pattern that matches. -/
def findRoute (routes : List (RouteEntry V E)) (route : String) :
    Option (RouteEntry V E × List (String × String)) :=
  match routes with
  | [] => none
  | re :: rest =>
    match matchPattern re.pattern route with
    | some ps => some (re, ps)
    | none => findRoute rest route

/-- The request object `req` built inside the promise: `url` is the path with
the query split off, `method` is upper-cased, `body` is present only for
`post` (`...(method === "post" ? { body: values } : {})`). -/
def mkReq (route : String) (m : Method) (params query : List (String × String))
    (pathname : String) (values : Option V) : Req V :=
  { url := route
    method := methodUpper m
    params := params
    query := query
    pathname := pathname
    body := match m with | Method.post => values | Method.get => none }

/-- Source `getRoute(routeWithQueryParams, method, callerWindow)`: split off the
query, scan the method's routes for the first match, and return the dispatch
pipeline as a function of the (later-supplied) `values`; `none` when nothing
matched (`promise` stays `undefined`).  The `matchedRoute.__proto__.getWindow`
injection only stores the caller window on the params object and is outside
the model. -/
def getRoute (api : APIState V E) (rq : String) (m : Method) :
    Option (Option V → Sum (Option V) E) :=
  let rp := getRouteAndParams rq
  (findRoute (api.routesFor m) rp.1).map (fun rm => fun values =>
    dispatch api.middleware rm.1.callback (mkReq rp.1 m rm.2 rp.2 rq values))

/-- Source `Window.apply(route, method, values)` (Window.js): consult the window's
own table first, fall back to the parent's (global) table, and return
`undefined` (modelled as `Sum.inl none`) when neither matches. -/
def applyW (winAPI parentAPI : APIState V E) (rq : String) (m : Method)
    (values : Option V) : Sum (Option V) E :=
  match getRoute winAPI rq m with
  | some f => f values
  | none =>
    match getRoute parentAPI rq m with
    | some f => f values
    | none => Sum.inl none

/-! ## Geometry resolution — `DesktopClass.#getWindowPosition` (Settings.js)

Each of `width`/`height`/`x`/`y` is either a number (left untouched by
`applyProp`, which only translates strings) or a string.  Intermediate
percentage arithmetic is exact rational arithmetic; `parseInt` applied to a
number truncates toward zero. -/

/-- A `width`/`height`/`x`/`y` entry of the window specs: a JavaScript
number or string. -/
inductive SpecVal where
  | num (n : Int)
  | str (s : String)
  deriving Repr, DecidableEq

/-- The placement-relevant window specs after defaults are merged in.
`padding` is modelled as `none` when `parseInt(specs.padding)` is not an
integer, in which case the default padding (20) is used. -/
structure WinSpecs where
  width : SpecVal
  height : SpecVal
  x : SpecVal
  y : SpecVal
  padding : Option Int
  deriving Repr, DecidableEq

/-- Work-area geometry of one display, as exposed by `Screen.js`
(`x`/`y` origin and `width`/`height` of the work area). -/
structure ScreenInfo where
  x : Int
  y : Int
  width : Int
  height : Int
  deriving Repr, DecidableEq

/-- The resolved window rectangle handed to `BrowserWindow`. -/
structure WinGeom where
  width : Int
  height : Int
  x : Int
  y : Int
  deriving Repr, DecidableEq

/-- Default `this.defaults.window.padding`. -/
def defaultWindowPadding : Int := 20

/-- A JavaScript number as the exact (not necessarily reduced) fraction the
pixel arithmetic of `#getWindowPosition` produces: numerator over a positive
denominator.  Kept unnormalized so that every operation is a structural
computation. -/
structure JSNum where
  num : Int
  den : ℕ
  deriving Repr, DecidableEq

/-- An integer as a `JSNum`. -/
def JSNum.ofInt (n : Int) : JSNum := ⟨n, 1⟩

/-- Exact product of two `JSNum`s. -/
def jsMul (a b : JSNum) : JSNum := ⟨a.num * b.num, a.den * b.den⟩

/-- The `percent / 100` step of the percentage branch. -/
def jsDiv100 (a : JSNum) : JSNum := ⟨a.num, a.den * 100⟩

/-- The literal `0.5` used by `positions.center`. -/
def jsHalf : JSNum := ⟨1, 2⟩

/-- The literal `0` used by `positions.min`. -/
def jsZero : JSNum := ⟨0, 1⟩

/-- Test `str.match(/[0-9]+(\.[0-9]{1,2})?%$/)`: the regex is anchored only at the
end, so it succeeds exactly when the string ends with `%` and the character
before the `%` is a digit (the digit serves as the `[0-9]+`, and any longer
digit/decimal tail also ends in a digit). -/
def isPercentStr (s : String) : Bool :=
  match s.data.reverse with
  | '%' :: c :: _ => c.isDigit
  | _ => false

/-- Value of a list of decimal digit characters. -/
def digitsToNat (l : List Char) : ℕ :=
  l.foldl (fun acc c => 10 * acc + (c.toNat - 48)) 0

/-- JavaScript `parseFloat` restricted to what reaches it here: the leading
decimal literal of the string (digits, optionally `.` and more digits),
returned as the exact fraction `intPart.fracPart`; `none` when the string
does not start with a digit (JS `NaN`). -/
def parseFloatStr (s : String) : Option JSNum :=
  let intPart := s.data.takeWhile Char.isDigit
  if intPart.isEmpty then none
  else
    let rest := s.data.drop intPart.length
    let fracPart :=
      match rest with
      | '.' :: t => t.takeWhile Char.isDigit
      | _ => []
    some ⟨(digitsToNat intPart : ℕ) * (10 ^ fracPart.length : ℕ) + (digitsToNat fracPart : ℕ),
          10 ^ fracPart.length⟩

/-- JavaScript `parseInt` applied to a number: truncation toward zero (the denominator
of a `JSNum` is positive, so this is integer division of the absolute
numerator, with the sign restored). -/
def jsParseInt (q : JSNum) : Int :=
  if 0 ≤ q.num then q.num / (q.den : Int) else -((-q.num) / (q.den : Int))

/-- The error thrown for a symbolic literal on a size (message as in the
source, typo included). -/
def sizeErrMsg : String := "Values such as center or min are not accepted on with/height"

/-- The inner `translateString(str, originValue, isSize)`: a percentage
multiplies against `originValue`; `center`/`min`/`max` are rejected for
sizes and otherwise give half / zero / all of `originValue`; **any other
string falls through to `return originValue`** (the full origin value — not
the string itself).  A string that satisfies the percent regex but gives
`parseFloat` no leading number would be `NaN` in JS; no such value arises in
this development and the model marks it as an error. -/
def translateString (str : String) (originValue : JSNum) (isSize : Bool) :
    Except String JSNum :=
  if isPercentStr str then
    match parseFloatStr str with
    | some percent => Except.ok (jsMul originValue (jsDiv100 percent))
    | none => Except.error "NaN"
  else if str = "center" then
    if isSize then Except.error sizeErrMsg else Except.ok (jsMul originValue jsHalf)
  else if str = "min" then
    if isSize then Except.error sizeErrMsg else Except.ok jsZero
  else if str = "max" then
    if isSize then Except.error sizeErrMsg else Except.ok originValue
  else Except.ok originValue

/-- Source `applyProp` for a single property: strings are translated then
`parseInt`-ed; numbers pass through untouched. -/
def resolveDim (v : SpecVal) (originValue : JSNum) (isSize : Bool) :
    Except String Int :=
  match v with
  | SpecVal.num n => Except.ok n
  | SpecVal.str s => (translateString s originValue isSize).map jsParseInt

/-- Inside `#getWindowPosition` the final clamp reads `screen.width` and
`screen.height`, where `screen` is the *electron module object* imported at
the top of `Settings.js` — it has no `width` property, so the access yields
`undefined`. -/
def electronScreenWidth : Option Int := none

/-- Access `screen.height` on the electron module object: `undefined`. -/
def electronScreenHeight : Option Int := none

/-- Source `#getWindowPosition(specs, screenName)`: resolve `width` and `height`
against the display's dimensions, then `x` and `y` against the remaining
travel ranges `mainScreen.width - specs.width` / `mainScreen.height -
specs.height`, translate by the display origin, and finally apply the
padding clamp.  The clamp compares against `screen.width - padding*2` where
`screen.width` is `undefined` (see `electronScreenWidth`): in JavaScript
`specs.width > NaN` is `false`, so the clamp branch is dead code. -/
def getWindowPosition (specs : WinSpecs) (mainScreen : ScreenInfo) :
    Except String WinGeom :=
  let padding := specs.padding.getD defaultWindowPadding
  match resolveDim specs.width (JSNum.ofInt mainScreen.width) true with
  | Except.error e => Except.error e
  | Except.ok width =>
    match resolveDim specs.height (JSNum.ofInt mainScreen.height) true with
    | Except.error e => Except.error e
    | Except.ok height =>
      match resolveDim specs.x (JSNum.ofInt (mainScreen.width - width)) false with
      | Except.error e => Except.error e
      | Except.ok x0 =>
        match resolveDim specs.y (JSNum.ofInt (mainScreen.height - height)) false with
        | Except.error e => Except.error e
        | Except.ok y0 =>
          let x := x0 + mainScreen.x
          let y := y0 + mainScreen.y
          let clampW :=
            match electronScreenWidth with
            | none => (width, x)
            | some w =>
              if width > w - 2 * padding then (w - 2 * padding, padding) else (width, x)
          let clampH :=
            match electronScreenHeight with
            | none => (height, y)
            | some h =>
              if height > h - 2 * padding then (h - 2 * padding, padding) else (height, y)
          Except.ok { width := clampW.1, height := clampH.1, x := clampW.2, y := clampH.2 }

/-! ## Display selection — `DesktopClass.#getScreenName` (Settings.js)

A preference is `undefined`, a string, or an array of strings.  Displays are
identified by the ids in `screensOrder` (the same ids key the `screens`
map, so `this.screens[k]` succeeds exactly when `k ∈ screensOrder`); an
array used as an object key coerces to its comma-joined string. -/

/-- The fallback part of `#getScreenName`: decide the iteration direction
from the **first** `"left"`/`"right"` entry, resolve any named entries
against the forward `screensOrder`, and give named matches priority over
the directional fallback. -/
def selectFallback (screensOrder : List String) (prefs : List String) :
    Option String :=
  let dirRight := (prefs.filter (fun e => e == "left" || e == "right")).head? == some "right"
  let ordered := if dirRight then screensOrder.reverse else screensOrder
  let names := prefs.filter (fun e => e != "left" && e != "right")
  let byName :=
    if names.isEmpty then none
    else (screensOrder.filter (fun e => names.contains e)).head?
  byName <|> ordered.head?

/-- Source `#getScreenName(screen)`: `undefined`, the empty string (both falsy) and
the literal `"primary"` give the primary display; a known id is returned
as-is (an array is coerced to its comma-joined string for the lookup, and a
hit returns that id); otherwise fall back to `selectFallback`.  The result
is `none` only when the fallback finds nothing (`screensOrder[0]` on an
empty enumeration is `undefined`). -/
def getScreenName (screensOrder : List String) (primary : String)
    (pref : Option (Sum String (List String))) : Option String :=
  match pref with
  | none => some primary
  | some (Sum.inl s) =>
    if s == "" || s == "primary" then some primary
    else if screensOrder.contains s then some s
    else selectFallback screensOrder [s]
  | some (Sum.inr l) =>
    let asKey := joinWithChar ',' l
    if screensOrder.contains asKey then some asKey
    else selectFallback screensOrder l

/-! ## Helper lemmas -/

/-- Decidable equality for `Except` results, used to evaluate the model on
concrete inputs. -/
instance exceptDecEq {ε α : Type} [DecidableEq ε] [DecidableEq α] :
    DecidableEq (Except ε α)
  | Except.ok a, Except.ok b =>
    if h : a = b then isTrue (by rw [h]) else isFalse (by simp [h])
  | Except.ok _, Except.error _ => isFalse (by simp)
  | Except.error _, Except.ok _ => isFalse (by simp)
  | Except.error e1, Except.error e2 =>
    if h : e1 = e2 then isTrue (by rw [h]) else isFalse (by simp [h])

/-- Running the loop over `pre ++ tail` when every element of `pre` returns
without calling `res` and without throwing: the loop reaches `tail` with the
breakpoint still clear and the break value untouched (only the running
`result` accumulator has changed, to some value `res1`), and the invocation
count grows by `pre.length`. -/
theorem runTrace_append_pass {V E : Type} (req : Req V) (tail : List (MW V E)) :
    ∀ (pre : List (MW V E)) (bv0 res0 : Option V),
      (∀ mw ∈ pre, ∃ r0, mw req = MWOutcome.ret r0 none) →
      ∃ res1,
        runTrace req (pre ++ tail) false bv0 res0 =
          ((runTrace req tail false bv0 res1).1 + pre.length,
           (runTrace req tail false bv0 res1).2)
  | [], bv0, res0, _ => ⟨res0, by simp⟩
  | p :: ps, bv0, res0, hpre => by
    obtain ⟨r0, hr0⟩ := hpre p (List.mem_cons_self _ _)
    obtain ⟨res1, hres1⟩ := runTrace_append_pass req tail ps bv0 r0
      (fun mw hmw => hpre mw (List.mem_cons_of_mem _ hmw))
    refine ⟨res1, ?_⟩
    simp only [List.cons_append, runTrace, hr0, List.length_cons, List.append_eq, hres1]
    simp [Nat.add_assoc]

/-- A list of the form `pre ++ m :: post` is never empty once viewed through
`List.isEmpty`. -/
theorem isEmpty_append_cons {α : Type} (pre post : List α) (m : α) :
    (pre ++ m :: post).isEmpty = false := by
  cases pre <;> rfl

/-- Evaluation of the loop from a chain element `m` that calls `res` while at
least one element follows it: `m` is invoked, the next iteration's breakpoint
check returns the break value, and nothing further is invoked. -/
theorem runTrace_break_head {V E : Type} (req : Req V) (m : MW V E)
    (rest : List (MW V E)) (q : MW V E) (qs : List (MW V E))
    (r bv res0 bv0 : Option V)
    (hm : m req = MWOutcome.ret r (some bv)) (hrest : rest = q :: qs) :
    runTrace req (m :: rest) false bv0 res0 = (1, Except.ok bv) := by
  subst hrest
  simp [runTrace, hm]

/-! ## Concrete fixtures used by the witnesses -/

/-- A concrete request value. -/
def reqEx : Req ℕ :=
  { url := "/x", method := "GET", params := [], query := [], pathname := "/x", body := none }

/-- Middleware that returns `undefined` without calling `res` or throwing. -/
def mwPass : MW ℕ ℕ := fun _ => MWOutcome.ret none none

/-- Middleware that calls `res(5)` (then returns `undefined`). -/
def mwRespond : MW ℕ ℕ := fun _ => MWOutcome.ret none (some (some 5))

/-- Middleware that throws `7`. -/
def mwBoom : MW ℕ ℕ := fun _ => MWOutcome.thrown 7

/-- Handler that returns `1`. -/
def hOk : MW ℕ ℕ := fun _ => MWOutcome.ret (some 1) none

/-- Handler that throws `9`. -/
def hBoom : MW ℕ ℕ := fun _ => MWOutcome.thrown 9

/-! ## Claims -/

/-- C1: for every dispatch through a non-empty middleware chain with final
handler `handler`, if a middleware `m` (at any position: `pre ++ m :: post`)
calls its `res` callback with value `bv` while the middlewares before it
passed through (returned without calling `res` and without throwing), then
the dispatch result is exactly `bv`, and the number of chain elements
invoked is `pre.length + 1` — the elements of `post` and the final handler
are never invoked. -/
theorem middleware_short_circuit {V E : Type}
    (pre post : List (MW V E)) (m handler : MW V E) (req : Req V)
    (r bv : Option V)
    (hpre : ∀ mw ∈ pre, ∃ r0, mw req = MWOutcome.ret r0 none)
    (hm : m req = MWOutcome.ret r (some bv)) :
    dispatch (pre ++ m :: post) handler req = Sum.inl bv ∧
    invokedCount (pre ++ m :: post) handler req = pre.length + 1 := by
  have htrace : (pre ++ m :: post) ++ [handler] = pre ++ (m :: (post ++ [handler])) := by
    simp
  obtain ⟨res1, h1⟩ :=
    runTrace_append_pass req (m :: (post ++ [handler])) pre none none hpre
  have h2 : runTrace req (m :: (post ++ [handler])) false none res1 = (1, Except.ok bv) := by
    cases post with
    | nil => exact runTrace_break_head req m _ handler [] r bv res1 none hm (by simp)
    | cons q qs => exact runTrace_break_head req m _ q (qs ++ [handler]) r bv res1 none hm (by simp)
  have h3 : runTrace req ((pre ++ m :: post) ++ [handler]) false none none =
      (pre.length + 1, Except.ok bv) := by
    rw [htrace, h1, h2]
    simp [Nat.add_comm]
  constructor
  · simp only [dispatch, isEmpty_append_cons, Bool.false_eq_true, if_false, h3]
  · simp only [invokedCount, isEmpty_append_cons, Bool.false_eq_true, if_false, h3]

/-- C1 witness: in the chain `[mwPass, mwRespond, mwPass]` with handler
`hOk`, the second middleware calls `res(5)`: the dispatch result is `5` and
only the first two chain elements are invoked. -/
theorem middleware_short_circuit_witness :
    dispatch [mwPass, mwRespond, mwPass] hOk reqEx = Sum.inl (some 5) ∧
    invokedCount [mwPass, mwRespond, mwPass] hOk reqEx = 2 := by
  have h := middleware_short_circuit [mwPass] [mwPass] mwRespond hOk reqEx none (some 5)
    (by
      intro mw hmw
      have : mw = mwPass := by simpa using hmw
      exact ⟨none, by rw [this]; rfl⟩)
    rfl
  exact h

/-- C6: any exception thrown by a middleware (first conjunct: the throwing
element `m` sits anywhere in the chain, the middlewares before it passing
through) or by the final handler (second conjunct: every middleware passes
through, then the handler throws) is caught at the pipeline boundary and
becomes the dispatch *result value* `Sum.inr e`.  `dispatch` is a total
function into `Sum (Option V) E`, so no exception ever propagates out of
the dispatch call. -/
theorem dispatch_catches_exceptions (V E : Type) :
    (∀ (pre post : List (MW V E)) (m handler : MW V E) (req : Req V) (e : E),
        (∀ mw ∈ pre, ∃ r0, mw req = MWOutcome.ret r0 none) →
        m req = MWOutcome.thrown e →
        dispatch (pre ++ m :: post) handler req = Sum.inr e) ∧
    (∀ (mws : List (MW V E)) (handler : MW V E) (req : Req V) (e : E),
        (∀ mw ∈ mws, ∃ r0, mw req = MWOutcome.ret r0 none) →
        handler req = MWOutcome.thrown e →
        dispatch mws handler req = Sum.inr e) := by
  constructor
  · intro pre post m handler req e hpre hm
    have htrace : (pre ++ m :: post) ++ [handler] = pre ++ (m :: (post ++ [handler])) := by
      simp
    obtain ⟨res1, h1⟩ :=
      runTrace_append_pass req (m :: (post ++ [handler])) pre none none hpre
    have h2 : runTrace req (m :: (post ++ [handler])) false none res1 =
        (1, Except.error e) := by
      simp [runTrace, hm]
    have h3 : (runTrace req ((pre ++ m :: post) ++ [handler]) false none none).2 =
        Except.error e := by
      rw [htrace, h1, h2]
    simp only [dispatch, isEmpty_append_cons, Bool.false_eq_true, if_false, h3]
  · intro mws handler req e hmws hh
    cases mws with
    | nil => simp [dispatch, hh]
    | cons m0 ms =>
      obtain ⟨res1, h1⟩ :=
        runTrace_append_pass req [handler] (m0 :: ms) none none hmws
      have h2 : runTrace req [handler] false none res1 = (1, Except.error e) := by
        simp [runTrace, hh]
      have h3 : (runTrace req ((m0 :: ms) ++ [handler]) false none none).2 =
          Except.error e := by
        rw [h1, h2]
      simp only [dispatch, List.isEmpty_cons, Bool.false_eq_true, if_false]
      rw [h3]

/-- C6 witness: a middleware throwing `7` yields the result value
`Sum.inr 7`; with passing middleware, a handler throwing `9` yields
`Sum.inr 9`. -/
theorem dispatch_catches_exceptions_witness :
    dispatch [mwBoom] hOk reqEx = Sum.inr 7 ∧
    dispatch [mwPass] hBoom reqEx = Sum.inr 9 := by
  constructor
  · exact (dispatch_catches_exceptions ℕ ℕ).1 [] [] mwBoom hOk reqEx 7 (by simp) rfl
  · exact (dispatch_catches_exceptions ℕ ℕ).2 [mwPass] hBoom reqEx 9
      (by
        intro mw hmw
        have : mw = mwPass := by simpa using hmw
        exact ⟨none, by rw [this]; rfl⟩)
      rfl

/-- The scanning loop returns the earliest-registered matching route: if no
entry of `pre` matches and `re` matches with params `ps`, the scan of
`pre ++ re :: post` yields `(re, ps)` whatever follows. -/
theorem findRoute_first {V E : Type} (route : String) :
    ∀ (pre : List (RouteEntry V E)) (re : RouteEntry V E) (post : List (RouteEntry V E))
      (ps : List (String × String)),
      (∀ r0 ∈ pre, matchPattern r0.pattern route = none) →
      matchPattern re.pattern route = some ps →
      findRoute (pre ++ re :: post) route = some (re, ps)
  | [], re, post, ps, _, hm => by simp [findRoute, hm]
  | p :: ps0, re, post, ps, hpre, hm => by
    have hp : matchPattern p.pattern route = none := hpre p (List.mem_cons_self _ _)
    have ih := findRoute_first route ps0 re post ps
      (fun r0 hr0 => hpre r0 (List.mem_cons_of_mem _ hr0)) hm
    simp [findRoute, hp, ih]

/-- Handlers used by the routing fixtures. -/
def cbA : MW ℕ ℕ := fun _ => MWOutcome.ret (some 1) none

/-- Second handler registered under the same pattern. -/
def cbB : MW ℕ ℕ := fun _ => MWOutcome.ret (some 2) none

/-- Window-local handler returning `7`. -/
def cbW : MW ℕ ℕ := fun _ => MWOutcome.ret (some 7) none

/-- Global handler for `/w`, shadowed by the window-local one. -/
def cbG1 : MW ℕ ℕ := fun _ => MWOutcome.ret (some 9) none

/-- Global handler for `/g`. -/
def cbG2 : MW ℕ ℕ := fun _ => MWOutcome.ret (some 8) none

/-- A table with two routes registered under the same pattern (the second
could never be registered through `registerRoute`, but `getRoute` itself
scans whatever the list holds). -/
def apiFM : APIState ℕ ℕ := ⟨[⟨"/a", cbA⟩, ⟨"/a", cbB⟩], [], []⟩

/-- A window-local table with a route for `/w`. -/
def winEx : APIState ℕ ℕ := ⟨[⟨"/w", cbW⟩], [], []⟩

/-- A global table with routes for `/w` (shadowed) and `/g`. -/
def globEx : APIState ℕ ℕ := ⟨[⟨"/w", cbG1⟩, ⟨"/g", cbG2⟩], [], []⟩

/-- An empty global table. -/
def globEmpty : APIState ℕ ℕ := ⟨[], [], []⟩

/-- C10: when several registered patterns of a method match the dispatched
path, `getRoute` builds the dispatch pipeline for the earliest-registered
matching route: with the method's route list split as `pre ++ re :: post`
where nothing in `pre` matches and `re` matches with params `ps`, the
returned pipeline dispatches through `re.callback` — whatever matching
routes `post` may hold, so registration order determines which handler
runs. -/
theorem first_match_wins {V E : Type} (api : APIState V E)
    (pre post : List (RouteEntry V E)) (re : RouteEntry V E)
    (rq : String) (m : Method) (ps : List (String × String))
    (hroutes : api.routesFor m = pre ++ re :: post)
    (hpre : ∀ r0 ∈ pre, matchPattern r0.pattern (getRouteAndParams rq).1 = none)
    (hm : matchPattern re.pattern (getRouteAndParams rq).1 = some ps) :
    getRoute api rq m = some (fun values =>
      dispatch api.middleware re.callback
        (mkReq (getRouteAndParams rq).1 m ps (getRouteAndParams rq).2 rq values)) := by
  have hf := findRoute_first (getRouteAndParams rq).1 pre re post ps hpre hm
  simp only [getRoute, hroutes, hf, Option.map_some']

/-- C10 witness: with `/a` registered twice (handlers returning `1` and
`2`), dispatching `/a` runs the first-registered handler and returns `1`. -/
theorem first_match_wins_witness :
    (getRoute apiFM "/a" Method.get).map (fun f => f none) = some (Sum.inl (some 1)) := by
  have h := first_match_wins apiFM [] [⟨"/a", cbB⟩] ⟨"/a", cbA⟩ "/a" Method.get []
    rfl (by simp) (by decide)
  rw [h]
  rfl

/-- C9: `Window.apply` consults the window's own route table first — when it
matches, the result is that pipeline's and is independent of the global
table (first conjunct); the global table is consulted only when no
window-local route matches (second conjunct); when neither table matches,
the dispatch returns the empty result `undefined` (`Sum.inl none`) rather
than raising an error (third conjunct). -/
theorem window_table_precedence (V E : Type) :
    (∀ (winAPI g g' : APIState V E) (rq : String) (m : Method) (v : Option V)
        (f : Option V → Sum (Option V) E),
        getRoute winAPI rq m = some f →
        applyW winAPI g rq m v = f v ∧ applyW winAPI g rq m v = applyW winAPI g' rq m v) ∧
    (∀ (winAPI g : APIState V E) (rq : String) (m : Method) (v : Option V)
        (f : Option V → Sum (Option V) E),
        getRoute winAPI rq m = none →
        getRoute g rq m = some f →
        applyW winAPI g rq m v = f v) ∧
    (∀ (winAPI g : APIState V E) (rq : String) (m : Method) (v : Option V),
        getRoute winAPI rq m = none →
        getRoute g rq m = none →
        applyW winAPI g rq m v = Sum.inl none) := by
  refine ⟨?_, ?_, ?_⟩
  · intro winAPI g g' rq m v f h
    constructor <;> simp [applyW, h]
  · intro winAPI g rq m v f h1 h2
    simp [applyW, h1, h2]
  · intro winAPI g rq m v h1 h2
    simp [applyW, h1, h2]

/-- C9 witness: `/w` exists in both tables — the window-local handler wins
(result `7`, unchanged if the global table is emptied); `/g` exists only
globally — fallback returns `8`; `/zzz` matches nowhere — result is
`undefined`. -/
theorem window_table_precedence_witness :
    applyW winEx globEx "/w" Method.get none = Sum.inl (some 7) ∧
    applyW winEx globEx "/w" Method.get none = applyW winEx globEmpty "/w" Method.get none ∧
    applyW winEx globEx "/g" Method.get none = Sum.inl (some 8) ∧
    applyW winEx globEx "/zzz" Method.get none = Sum.inl none := by
  have hqw : getRouteAndParams "/w" = ("/w", []) := by decide
  have hqg : getRouteAndParams "/g" = ("/g", []) := by decide
  have hqz : getRouteAndParams "/zzz" = ("/zzz", []) := by decide
  have hww : matchPattern "/w" "/w" = some ([] : List (String × String)) := by decide
  have hwg : matchPattern "/w" "/g" = none := by decide
  have hgg : matchPattern "/g" "/g" = some ([] : List (String × String)) := by decide
  have hwz : matchPattern "/w" "/zzz" = none := by decide
  have hgz : matchPattern "/g" "/zzz" = none := by decide
  have hw : getRoute winEx "/w" Method.get =
      some (fun values => dispatch winEx.middleware cbW (mkReq "/w" Method.get [] [] "/w" values)) := by
    simp only [getRoute, hqw, APIState.routesFor, winEx, findRoute, hww, Option.map_some']
  have hwgNone : getRoute winEx "/g" Method.get = none := by
    simp only [getRoute, hqg, APIState.routesFor, winEx, findRoute, hwg, Option.map_none']
  have hgSome : getRoute globEx "/g" Method.get =
      some (fun values => dispatch globEx.middleware cbG2 (mkReq "/g" Method.get [] [] "/g" values)) := by
    simp only [getRoute, hqg, APIState.routesFor, globEx, findRoute, hwg, hgg, Option.map_some']
  have hwzNone : getRoute winEx "/zzz" Method.get = none := by
    simp only [getRoute, hqz, APIState.routesFor, winEx, findRoute, hwz, Option.map_none']
  have hgzNone : getRoute globEx "/zzz" Method.get = none := by
    simp only [getRoute, hqz, APIState.routesFor, globEx, findRoute, hwz, hgz, Option.map_none']
  have h1 := (window_table_precedence ℕ ℕ).1 winEx globEx globEmpty "/w" Method.get none _ hw
  have h2 := (window_table_precedence ℕ ℕ).2.1 winEx globEx "/g" Method.get none _ hwgNone hgSome
  have h3 := (window_table_precedence ℕ ℕ).2.2 winEx globEx "/zzz" Method.get none hwzNone hgzNone
  exact ⟨h1.1.trans rfl, h1.2, h2.trans rfl, h3⟩

/-- Trivial handler used by the registration fixtures. -/
def passRet : MW Unit Unit := fun _ => MWOutcome.ret none none

/-- JavaScript `parseInt` of an integer-valued `JSNum` is that integer. -/
theorem jsParseInt_ofInt (n : Int) : jsParseInt (JSNum.ofInt n) = n := by
  simp only [jsParseInt, JSNum.ofInt]
  split
  · simp
  · simp

/-- C5 counterexample: the claim says registering `GET /ping` when `GET /p*`
already exists must conflict; in the model (matcher modelled from the spec:
only a standalone trailing `*` segment is a wildcard, so `p*` is a literal
segment) the duplicate check does not fire and the registration succeeds. -/
theorem duplicate_check_pstar_cex :
    throwErrorIfExists [RouteEntry.mk "/p*" passRet] "/ping" = false ∧
    registerRoute (⟨[⟨"/p*", passRet⟩], [], []⟩ : APIState Unit Unit) Method.get "/ping" passRet
      = Except.ok ⟨[⟨"/p*", passRet⟩, ⟨"/ping", passRet⟩], [], []⟩ := by
  have h : throwErrorIfExists [RouteEntry.mk "/p*" passRet] "/ping" = false := by decide
  refine ⟨h, ?_⟩
  simp only [registerRoute, APIState.routesFor, h, Bool.false_eq_true, if_false]
  rfl

/-- C5 (amended): registration tests the new route's literal form against
every existing compiled pattern of the method (first conjunct, the exact
`any`-characterisation); `GET /ping` twice errors on the second call;
`/ping` and `/pi*` do not conflict in either order; `/ping` after `/p*`
does **not** conflict (`p*` is a literal segment — only a standalone
trailing `*` segment is a wildcard), while `/ping` after `/*` does. -/
theorem duplicate_detection_amended :
    (∀ (V E : Type) (rs : List (RouteEntry V E)) (r : String),
        throwErrorIfExists rs r = true ↔
          ∃ re ∈ rs, (matchPattern re.pattern r).isSome = true) ∧
    registerRoute (⟨[⟨"/ping", passRet⟩], [], []⟩ : APIState Unit Unit) Method.get "/ping" passRet
      = Except.error "Route [get] /ping already exists" ∧
    throwErrorIfExists [RouteEntry.mk "/ping" passRet] "/pi*" = false ∧
    throwErrorIfExists [RouteEntry.mk "/pi*" passRet] "/ping" = false ∧
    throwErrorIfExists [RouteEntry.mk "/*" passRet] "/ping" = true := by
  refine ⟨?_, ?_, by decide, by decide, by decide⟩
  · intro V E rs r
    simp [throwErrorIfExists, List.any_eq_true]
  · have h : throwErrorIfExists [RouteEntry.mk "/ping" passRet] "/ping" = true := by decide
    simp only [registerRoute, APIState.routesFor, h, if_true]
    rfl

/-- C5 witness: the `any`-characterisation instantiated at a one-route
table — re-registering the exact same pattern is flagged. -/
theorem duplicate_detection_amended_witness :
    throwErrorIfExists [RouteEntry.mk "/ping" passRet] "/ping" = true := by
  exact (duplicate_detection_amended.1 Unit Unit [⟨"/ping", passRet⟩] "/ping").mpr
    ⟨⟨"/ping", passRet⟩, List.mem_singleton.mpr rfl, by decide⟩

/-- C8 counterexample: the claim says *everything after the first `?`* is
parsed as the query; on `"/a?x=1?z"` the code parses only the portion
between the first and second `?` (query `{x:"1"}`), while parsing
everything after the first `?` would bind `{x:"1?z"}`. -/
theorem query_second_qmark_cex :
    getRouteAndParams "/a?x=1?z" = ("/a", [("x", "1")]) ∧
    claimRouteAndParams "/a?x=1?z" = ("/a", [("x", "1?z")]) ∧
    ([("x", "1")] : List (String × String)) ≠ [("x", "1?z")] := by
  exact ⟨by decide, by decide, by decide⟩

/-- C8 (amended): the route is everything before the first `?`; only the
portion between the first and the second `?` is parsed as the flat query
map (anything after a second `?` is silently discarded); every entry whose
`=`-split does not have exactly two parts is dropped silently.  The two
spec examples hold, and `"/a?x=1?z"` shows the second-`?` discard. -/
theorem query_parsing_amended :
    (∀ (acc : List (String × String)) (kv : String),
        (strSplitOn '=' kv).length ≠ 2 → queryStep acc kv = acc) ∧
    (∀ rq : String, (getRouteAndParams rq).1 = (strSplitOn '?' rq).headD "") ∧
    getRouteAndParams "/a?x=1&y=2" = ("/a", [("x", "1"), ("y", "2")]) ∧
    getRouteAndParams "/a?bad&x=1" = ("/a", [("x", "1")]) ∧
    getRouteAndParams "/a?x=1?z" = ("/a", [("x", "1")]) := by
  refine ⟨?_, fun rq => rfl, by decide, by decide, by decide⟩
  intro acc kv h
  unfold queryStep
  cases hs : strSplitOn '=' kv with
  | nil => rfl
  | cons k t =>
    cases t with
    | nil => rfl
    | cons v t2 =>
      cases t2 with
      | nil =>
        rw [hs] at h
        simp at h
      | cons w t3 => rfl

/-- C8 witness: a pair without `=` is dropped by the fold step. -/
theorem query_parsing_amended_witness : queryStep [] "bad" = [] := by
  exact query_parsing_amended.1 [] "bad" (by decide)

/-- C2: the padding clamp is dead code — a `width:1200` spec on a
1000-wide display with padding 20 resolves to width 1200 with `x`
untouched (the source compares against `screen.width` where `screen` is
the electron module object, so the comparison is `1200 > NaN`, i.e.
`false`), even though 1200 exceeds the display's width minus twice the
padding.  The claim (clamp to 960, `x` pinned to 20) describes the
intended behaviour; the code never clamps. -/
theorem clamp_dead_at_oversized_spec :
    getWindowPosition ⟨SpecVal.num 1200, SpecVal.num 600, SpecVal.num 0, SpecVal.num 0, some 20⟩
        ⟨0, 0, 1000, 800⟩ = Except.ok ⟨1200, 600, 0, 0⟩ ∧
    ((1000 : Int) - 2 * 20 < 1200) := by
  exact ⟨by decide, by decide⟩

/-- C3 counterexample: the claim says every non-percentage, non-symbolic
string passes through unchanged as literal pixels; the code's
`translateString` falls through to `return originValue`, so width `"700"`
on a 1000-wide display resolves to 1000, not 700. -/
theorem size_string_passthrough_cex :
    getWindowPosition ⟨SpecVal.str "700", SpecVal.num 600, SpecVal.num 0, SpecVal.num 0, some 0⟩
        ⟨0, 0, 1000, 800⟩ = Except.ok ⟨1000, 600, 0, 0⟩ ∧
    translateString "700" (JSNum.ofInt 1000) true = Except.ok (JSNum.ofInt 1000) ∧
    ((1000 : Int) ≠ 700) := by
  exact ⟨by decide, by decide, by decide⟩

/-- C3 (amended): when resolving width/height, a percentage string
multiplies against the display's respective dimension; the symbolic
literals `center`/`min`/`max` are rejected with the invalid-spec error; and
**every other string resolves to the display's full respective dimension**
(the `return originValue` fallback — this is how `"full"` works), rather
than passing through unchanged. -/
theorem size_resolution_amended :
    (∀ (s : String) (w p : JSNum),
        isPercentStr s = true → parseFloatStr s = some p →
        translateString s w true = Except.ok (jsMul w (jsDiv100 p))) ∧
    (∀ w : JSNum,
        translateString "center" w true = Except.error sizeErrMsg ∧
        translateString "min" w true = Except.error sizeErrMsg ∧
        translateString "max" w true = Except.error sizeErrMsg) ∧
    (∀ (s : String) (w : JSNum),
        isPercentStr s = false → s ≠ "center" → s ≠ "min" → s ≠ "max" →
        translateString s w true = Except.ok w) := by
  refine ⟨?_, ?_, ?_⟩
  · intro s w p h1 h2
    simp [translateString, h1, h2]
  · intro w
    have hc : isPercentStr "center" = false := by decide
    have hm : isPercentStr "min" = false := by decide
    have hx : isPercentStr "max" = false := by decide
    refine ⟨by simp [translateString, hc], by simp [translateString, hm],
      by simp [translateString, hx]⟩
  · intro s w h1 h2 h3 h4
    simp [translateString, h1, h2, h3, h4]

/-- C3 witness: width `"50%"` of a 1000-wide display is the exact product
`1000 * (50/100)`, i.e. the fraction `50000/100` (= 500). -/
theorem size_resolution_amended_witness :
    translateString "50%" (JSNum.ofInt 1000) true = Except.ok ⟨50000, 100⟩ := by
  have h := size_resolution_amended.1 "50%" (JSNum.ofInt 1000) ⟨50, 1⟩ (by decide) (by decide)
  rw [h]
  rfl

/-- C7: `x`/`y` are resolved against the travel ranges
`display.width - resolvedWidth` / `display.height - resolvedHeight`:
`center` gives half the range, `min` gives 0, `max` the full range, a
percentage multiplies against the range, and the result is translated by
the display origin.  The spec example resolves to
`{width:500, height:400, x:350, y:0}`. -/
theorem position_resolution :
    (∀ (scr : ScreenInfo) (w hgt py : Int) (pad : Option Int),
        getWindowPosition ⟨SpecVal.num w, SpecVal.num hgt, SpecVal.str "center",
            SpecVal.num py, pad⟩ scr =
          Except.ok ⟨w, hgt,
            jsParseInt (jsMul (JSNum.ofInt (scr.width - w)) jsHalf) + scr.x, py + scr.y⟩) ∧
    (∀ (scr : ScreenInfo) (w hgt py : Int) (pad : Option Int),
        getWindowPosition ⟨SpecVal.num w, SpecVal.num hgt, SpecVal.str "min",
            SpecVal.num py, pad⟩ scr =
          Except.ok ⟨w, hgt, scr.x, py + scr.y⟩) ∧
    (∀ (scr : ScreenInfo) (w hgt py : Int) (pad : Option Int),
        getWindowPosition ⟨SpecVal.num w, SpecVal.num hgt, SpecVal.str "max",
            SpecVal.num py, pad⟩ scr =
          Except.ok ⟨w, hgt, (scr.width - w) + scr.x, py + scr.y⟩) ∧
    (∀ (scr : ScreenInfo) (w hgt py : Int) (pad : Option Int) (s : String) (p : JSNum),
        isPercentStr s = true → parseFloatStr s = some p →
        getWindowPosition ⟨SpecVal.num w, SpecVal.num hgt, SpecVal.str s,
            SpecVal.num py, pad⟩ scr =
          Except.ok ⟨w, hgt,
            jsParseInt (jsMul (JSNum.ofInt (scr.width - w)) (jsDiv100 p)) + scr.x,
            py + scr.y⟩) ∧
    getWindowPosition ⟨SpecVal.str "50%", SpecVal.num 400, SpecVal.str "center",
        SpecVal.str "min", some 0⟩ ⟨100, 0, 1000, 800⟩ =
      Except.ok ⟨500, 400, 350, 0⟩ := by
  have hc : isPercentStr "center" = false := by decide
  have hm : isPercentStr "min" = false := by decide
  have hx : isPercentStr "max" = false := by decide
  have h0 : jsParseInt jsZero = 0 := by decide
  refine ⟨?_, ?_, ?_, ?_, by decide⟩
  · intro scr w hgt py pad
    simp [getWindowPosition, resolveDim, translateString, hc, Except.map,
      electronScreenWidth, electronScreenHeight]
  · intro scr w hgt py pad
    simp [getWindowPosition, resolveDim, translateString, hm, h0, Except.map,
      electronScreenWidth, electronScreenHeight]
  · intro scr w hgt py pad
    simp [getWindowPosition, resolveDim, translateString, hx, jsParseInt_ofInt, Except.map,
      electronScreenWidth, electronScreenHeight]
  · intro scr w hgt py pad s p h1 h2
    simp [getWindowPosition, resolveDim, translateString, h1, h2, Except.map,
      electronScreenWidth, electronScreenHeight]

/-- C7 witness: a `25%` horizontal position on a 1000-wide display with a
200-wide window and origin `(10, 20)` resolves to `x = 210`. -/
theorem position_resolution_witness :
    getWindowPosition ⟨SpecVal.num 200, SpecVal.num 100, SpecVal.str "25%",
        SpecVal.num 0, some 0⟩ ⟨10, 20, 1000, 800⟩ =
      Except.ok ⟨200, 100, 210, 20⟩ := by
  have h := position_resolution.2.2.2.1 ⟨10, 20, 1000, 800⟩ 200 100 0 (some 0) "25%" ⟨25, 1⟩
    (by decide) (by decide)
  rw [h]
  decide

/-- C4 counterexample: the claim says the direction defaults to `"left"`
when both `"left"` and `"right"` appear in the preference; the code takes
the *first* left/right entry, so `["right","left"]` on displays
`[A, B, C]` picks `C` (rightmost), not `A`. -/
theorem direction_both_cex :
    getScreenName ["A", "B", "C"] "B" (some (Sum.inr ["right", "left"])) = some "C" ∧
    (some "C" ≠ some ("A" : String)) := by
  exact ⟨by decide, by decide⟩

/-- C4 (amended): no preference / `"primary"` / the empty string give the
primary display; a known id is returned; for a list preference the
iteration direction is chosen by the **first** `"left"`/`"right"` entry
(`"left"` when neither appears); named entries that match a known display
take priority over the directional fallback; otherwise the head of the
resolved iteration order is returned.  The spec's three examples hold. -/
theorem display_selection_amended :
    (∀ (so : List String) (primary : String),
        getScreenName so primary none = some primary) ∧
    (∀ (so : List String) (primary : String),
        getScreenName so primary (some (Sum.inl "primary")) = some primary) ∧
    (∀ (so : List String) (primary s : String),
        (s == "") = false → (s == "primary") = false → so.contains s = true →
        getScreenName so primary (some (Sum.inl s)) = some s) ∧
    (∀ (so : List String) (primary : String) (l : List String),
        so.contains (joinWithChar ',' l) = false →
        (∀ e ∈ l, e = "left" ∨ e = "right") →
        getScreenName so primary (some (Sum.inr l)) =
          (if (l.filter (fun e => e == "left" || e == "right")).head? == some "right"
           then so.reverse else so).head?) ∧
    (∀ (so : List String) (primary : String) (l : List String) (s : String),
        so.contains (joinWithChar ',' l) = false →
        (l.filter (fun e => e != "left" && e != "right")).isEmpty = false →
        (so.filter (fun e =>
            (l.filter (fun e2 => e2 != "left" && e2 != "right")).contains e)).head? = some s →
        getScreenName so primary (some (Sum.inr l)) = some s) ∧
    (getScreenName ["A", "B", "C"] "B" none = some "B" ∧
     getScreenName ["A", "B", "C"] "B" (some (Sum.inl "right")) = some "C" ∧
     getScreenName ["A", "B", "C"] "B" (some (Sum.inr ["unknown-name", "left"])) = some "A") := by
  refine ⟨fun so primary => rfl, fun so primary => rfl, ?_, ?_, ?_,
    by decide, by decide, by decide⟩
  · intro so primary s h1 h2 h3
    simp only [getScreenName, h1, h2, h3, Bool.or_self, Bool.false_eq_true, if_false, if_true]
  · intro so primary l hkey hlr
    have hnames : l.filter (fun e => e != "left" && e != "right") = [] := by
      rw [List.filter_eq_nil_iff]
      intro a ha
      rcases hlr a ha with h | h <;> simp [h]
    simp only [getScreenName, selectFallback, hkey, hnames, Bool.false_eq_true, if_false,
      List.isEmpty_nil, if_true, Option.none_orElse]
  · intro so primary l s hkey hne hfind
    simp only [getScreenName, selectFallback, hkey, hne, hfind, Bool.false_eq_true, if_false,
      Option.some_orElse]

/-- C4 witness: `["left","right"]` contains both direction literals; the
first is `"left"`, so the forward order is used and `A` is selected. -/
theorem display_selection_amended_witness :
    getScreenName ["A", "B", "C"] "B" (some (Sum.inr ["left", "right"])) = some "A" := by
  have h := display_selection_amended.2.2.2.1 ["A", "B", "C"] "B" ["left", "right"]
    (by decide) (by decide)
  rw [h]
  decide

end Electrolite
